import Mathlib

/-!
Shallow embedding of the geph5 client route engine
(`src/binaries/geph5-client/src/route.rs`) and the exit handshake
(`src/binaries/geph5-exit/src/listen.rs`), together with theorems
checking the specification's claims about them.

External crates (moka, blake3, x25519_dalek, ed25519_dalek, stdcode,
rand, hex) are modelled as explicit state, function parameters, or
faithful re-implementations of the small pure fragments the code uses.
-/

namespace Geph5

/-- A socket address: an IP (kept in textual form, as the code only ever
compares and prints IPs on the paths we model) plus a port. -/
structure SockAddr where
  ip : String
  port : Nat
deriving DecidableEq, Repr

/-! ### Failure cache (`ROUTE_SHITLIST` in route.rs)

The moka cache is modelled as a partial map from addresses to strike
counts.  The 600-second TTL is a real-time behaviour we do not model;
no claim below quantifies over time. -/

/-- The failure-cache state: `none` means the address is absent. -/
def Cache : Type := SockAddr → Option Nat

/-- moka `Cache::insert`. -/
def cacheInsert (c : Cache) (a : SockAddr) (v : Nat) : Cache :=
  fun x => if x = a then some v else c x

/-- moka `Cache::get_with`: returns the existing value, or inserts the
init value and returns it when absent.  Returns the value together with
the (possibly updated) cache. -/
def cacheGetWith (c : Cache) (a : SockAddr) (init : Nat) : Nat × Cache :=
  match c a with
  | some v => (v, c)
  | none => (init, cacheInsert c a init)

/-- route.rs `deprioritize_route`:
`ROUTE_SHITLIST.insert(addr, ROUTE_SHITLIST.get_with(addr, || 1) + 1)`. -/
def deprioritize_route (c : Cache) (a : SockAddr) : Cache :=
  let p := cacheGetWith c a 1
  cacheInsert p.2 a (p.1 + 1)

/-- The read performed by the dial-delay closures:
`ROUTE_SHITLIST.get(&addr).unwrap_or_default()` (the spec calls this
operation `penalty`). -/
def penalty (c : Cache) (a : SockAddr) : Nat :=
  (c a).getD 0

/-! ### Route descriptors and dialers -/

/-- `RouteDescriptor` (from `geph5_broker_protocol`; the variant shapes
and field names are exactly those matched in route.rs
`route_to_dialer`). -/
inductive RouteDescriptor where
  | tcp (addr : SockAddr)
  | sosistab3 (cookie : String) (lower : RouteDescriptor)
  | race (inside : List RouteDescriptor)
  | fallback (inside : List RouteDescriptor)
  | timeout (milliseconds : Nat) (lower : RouteDescriptor)
  | delay (milliseconds : Nat) (lower : RouteDescriptor)
  | other (unknown : String)

/-- The composite dialer objects route.rs builds out of sillad
combinators.  A `tcpDelay` leaf carries the `dyn_delay` closure: a
function from the failure-cache state (read at dial time) to a delay in
whole seconds.  `tcp` is a plain `TcpDialer` with no delay closure
(used on the Direct-constraint path).  `failing` is sillad's
`FailingDialer`. -/
inductive Dialer where
  | tcp (dest : SockAddr)
  | tcpDelay (dest : SockAddr) (delayFn : Cache → Nat)
  | sosistab (cookie : String) (inner : Dialer)
  | race (a : Dialer) (b : Dialer)
  | fallback (a : Dialer) (b : Dialer)
  | timeout (ms : Nat) (inner : Dialer)
  | delay (ms : Nat) (inner : Dialer)
  | failing

/-- Rust `Iterator::reduce` (left fold over the tail, seeded with the
head; `none` on an empty iterator). -/
def reduceDialers (f : Dialer → Dialer → Dialer) : List Dialer → Option Dialer
  | [] => none
  | x :: xs => some (xs.foldl f x)

/-- route.rs `route_to_dialer`.  The `Tcp` leaf's delay closure reads
the failure cache at dial time; `Race`/`Fallback` left-reduce their
children with the corresponding combinator and fall back to the failing
dialer when empty; `Other` compiles to the failing dialer.  (The
`vpn_whitelist` side effect of the `Tcp` arm is not tracked here; the
whitelist calls we need are tracked in `get_dialer` below.) -/
def route_to_dialer : RouteDescriptor → Dialer
  | .tcp addr => .tcpDelay addr (fun c => penalty c addr)
  | .sosistab3 cookie lower => .sosistab cookie (route_to_dialer lower)
  | .race inside =>
      (reduceDialers Dialer.race
        (inside.attach.map (fun r => route_to_dialer r.1))).getD .failing
  | .fallback inside =>
      (reduceDialers Dialer.fallback
        (inside.attach.map (fun r => route_to_dialer r.1))).getD .failing
  | .timeout milliseconds lower => .timeout milliseconds (route_to_dialer lower)
  | .delay milliseconds lower => .delay milliseconds (route_to_dialer lower)
  | .other _ => .failing
decreasing_by
  all_goals simp_wf
  all_goals have := List.sizeOf_lt_of_mem r.2
  all_goals omega

/-- Whether a dial can ever yield a stream, given which addresses the
network would accept a TCP connection to.  This abstracts away timing:
it over-approximates success for `timeout`, which is sound for the only
use below (the failing dialer can never succeed). -/
def dialSucceeds (net : SockAddr → Bool) : Dialer → Bool
  | .tcp d => net d
  | .tcpDelay d _ => net d
  | .sosistab _ inner => dialSucceeds net inner
  | .race a b => dialSucceeds net a || dialSucceeds net b
  | .fallback a b => dialSucceeds net a || dialSucceeds net b
  | .timeout _ inner => dialSucceeds net inner
  | .delay _ inner => dialSucceeds net inner
  | .failing => false

/-- The pre-dial delay (in whole seconds) a dialer's outermost TCP leaf
imposes when invoked while the failure cache is in state `c`: the
`dyn_delay` closure is evaluated at dial time against that state. -/
def preDialDelaySecs (d : Dialer) (c : Cache) : Nat :=
  match d with
  | .tcpDelay _ f => f c
  | _ => 0

/-! ### Exit directory and selection -/

/-- Country codes (external `isocountry` crate), kept as strings. -/
abbrev CountryCode : Type := String

/-- `ExitDescriptor` (from `geph5_broker_protocol`); field list as used
by route.rs and listen.rs.  `load` is an f64 in the source; we model it
as an exact rational (see `f64AsU64` for the cast). -/
structure ExitDescriptor where
  c2e_listen : SockAddr
  b2e_listen : SockAddr
  country : CountryCode
  city : String
  load : ℚ
  expiry : Nat
deriving DecidableEq, Repr

/-- Ed25519 verifying keys, modelled as their 32 raw bytes.  (Curve
point validity, checked by `VerifyingKey::from_bytes` in the external
ed25519_dalek crate, is not modelled.) -/
abbrev PubKey : Type := List Nat

/-- Rust's `as u64` cast from a finite f64: truncation toward zero,
saturating at the ends (negative values go to 0).  The f64 product
itself is modelled exactly over ℚ. -/
def f64AsU64 (q : ℚ) : Nat :=
  if q ≤ 0 then 0 else min (Rat.floor q).toNat (2 ^ 64 - 1)

/-- The key route.rs minimizes over: `(exit.load * 1000.0) as u64`. -/
def loadKey (load : ℚ) : Nat :=
  f64AsU64 (load * 1000)

/-- The load comparison the selector's `min_by_key` performs between two
exits: `Ord` on the integer keys. -/
def loadCmp (e1 e2 : ExitDescriptor) : Ordering :=
  compare (loadKey e1.load) (loadKey e2.load)

/-- Rust `Iterator::min_by_key`: the first element whose key is
minimal, `none` on an empty iterator. -/
def minByKey {α : Type} (key : α → Nat) : List α → Option α
  | [] => none
  | x :: xs =>
    match minByKey key xs with
    | none => some x
    | some y => if key x ≤ key y then some x else some y

/-- The three optional constraints get_dialer accumulates from the
`ExitConstraint` before filtering (`country_constraint`,
`city_constraint`, `hostname_constraint`). -/
structure SelConstraints where
  country_constraint : Option CountryCode
  city_constraint : Option String
  hostname_constraint : Option String

/-- The filter predicate of route.rs lines 117–134: country equality,
exact city equality, and hostname equality against the textual form of
the bridge-facing listen IP. -/
def exitMatches (sc : SelConstraints) (exit : ExitDescriptor) : Bool :=
  let country_pass :=
    match sc.country_constraint with
    | some country => exit.country == country
    | none => true
  let city_pass :=
    match sc.city_constraint with
    | some city => exit.city == city
    | none => true
  let hostname_pass :=
    match sc.hostname_constraint with
    | some hostname => exit.b2e_listen.ip == hostname
    | none => true
  country_pass && city_pass && hostname_pass

/-- route.rs lines 114–144: minimum-load-key exit among the filtered
list, else minimum-load-key exit among the unfiltered list, else `none`
(which get_dialer turns into the "no exits" error). -/
def selectExit (sc : SelConstraints) (all_exits : List (PubKey × ExitDescriptor)) :
    Option (PubKey × ExitDescriptor) :=
  match minByKey (fun e => loadKey e.2.load)
      (all_exits.filter (fun e => exitMatches sc e.2)) with
  | some m => some m
  | none => minByKey (fun e => loadKey e.2.load) all_exits

/-- `ExitConstraint` from route.rs. -/
inductive ExitConstraint where
  | auto
  | direct (s : String)
  | hostname (s : String)
  | country (c : CountryCode)
  | countryCity (c : CountryCode) (city : String)

/-- The constraint-accumulation `match` at the top of get_dialer
(route.rs lines 48–90), for the non-Direct constraints. -/
def constraintsOf : ExitConstraint → SelConstraints
  | .auto => ⟨none, none, none⟩
  | .direct _ => ⟨none, none, none⟩
  | .hostname h => ⟨none, none, some h⟩
  | .country c => ⟨some c, none, none⟩
  | .countryCity c city => ⟨some c, some city, none⟩

/-- Modelled from the spec: `BridgeMode` lives in the client's config
module, which is not among the sources; the spec gives its three
variants `Auto`, `ForceBridges`, `ForceDirect`. -/
inductive BridgeMode where
  | auto
  | forceBridges
  | forceDirect

/-! ### Direct-constraint string parsing -/

/-- `str::split_once`: split at the first occurrence of the separator,
`none` if the separator does not occur. -/
def splitOnceAux (c : Char) : List Char → Option (List Char × List Char)
  | [] => none
  | x :: xs =>
    if x = c then some ([], xs)
    else (splitOnceAux c xs).map (fun p => (x :: p.1, p.2))

/-- `str::split_once` on strings. -/
def splitOnce (s : String) (c : Char) : Option (String × String) :=
  (splitOnceAux c s.data).map (fun p => (⟨p.1⟩, ⟨p.2⟩))

/-- One hex digit (as accepted by the `hex` crate). -/
def hexDigit (c : Char) : Option Nat :=
  if '0' ≤ c ∧ c ≤ '9' then some (c.toNat - '0'.toNat)
  else if 'a' ≤ c ∧ c ≤ 'f' then some (c.toNat - 'a'.toNat + 10)
  else if 'A' ≤ c ∧ c ≤ 'F' then some (c.toNat - 'A'.toNat + 10)
  else none

/-- `hex::decode`: requires an even number of characters, each a hex
digit; yields the decoded bytes. -/
def hexDecode : List Char → Option (List Nat)
  | [] => some []
  | [_] => none
  | a :: b :: rest => do
    let hi ← hexDigit a
    let lo ← hexDigit b
    let tail ← hexDecode rest
    pure ((hi * 16 + lo) :: tail)

/-- `SliceRandom::choose` with the random draw made explicit: picks the
element at `k mod length`, `none` on an empty slice.  (`choose` with
`thread_rng` picks uniformly; the draw `k` is an input here.) -/
def chooseRand (l : List SockAddr) (k : Nat) : Option SockAddr :=
  l[k % l.length]?

/-- The placeholder `ExitDescriptor` built inline on the
Direct-constraint path (route.rs lines 70–77). -/
def dummyExit : ExitDescriptor where
  c2e_listen := ⟨"0.0.0.0", 0⟩
  b2e_listen := ⟨"0.0.0.0", 0⟩
  country := "ABW"
  city := ""
  load := 0
  expiry := 0

/-! ### get_dialer -/

/-- The environment of external effects get_dialer interacts with: DNS
resolution, the random draw for `choose`, and the broker's two answers.
Token fetching and exit-list signature verification happen in external
collaborators (auth.rs, geph5_broker_protocol); their failures are
folded into `exitsFetch`'s error case, and `exitsFetch`'s ok case is
the already-verified exit list. -/
structure DialEnv where
  resolve : String → Except String (List SockAddr)
  randIx : Nat
  exitsFetch : Except String (List (PubKey × ExitDescriptor))
  bridgeRoutes : Except String RouteDescriptor

/-- What get_dialer returns, plus two observations used by the claims:
the IPs passed to `vpn_whitelist` directly inside get_dialer (in call
order; the whitelist calls made inside `route_to_dialer` are not
tracked), and whether the broker was contacted at all. -/
structure DialOk where
  pubkey : PubKey
  exit : ExitDescriptor
  dialer : Dialer
  whitelisted : List String
  brokerCalled : Bool

/-- The direct dialer built at route.rs lines 150–153: TCP to the
chosen exit's client-facing endpoint with the dial-time failure-cache
delay closure. -/
def directDialerFor (a : SockAddr) : Dialer :=
  .tcpDelay a (fun c => penalty c a)

/-- The broker arm of route.rs `get_dialer` (everything after the
constraint `match`, lines 92–175): fetch exits, select one, build the
direct dialer, compile the bridge routes, compose per `bridge_mode`. -/
def get_dialer_broker (sc : SelConstraints) (mode : BridgeMode) (env : DialEnv) :
    Except String DialOk :=
  match env.exitsFetch with
  | .error e => .error e
  | .ok exits =>
    match selectExit sc exits with
    | none => .error "no exits that fit the criterion"
    | some (pubkey, exit) =>
      match env.bridgeRoutes with
      | .error e => .error e
      | .ok routes =>
        let direct_dialer := directDialerFor exit.c2e_listen
        let bridge_dialer := route_to_dialer routes
        let final_dialer :=
          match mode with
          | .auto => Dialer.race direct_dialer (.delay 1000 bridge_dialer)
          | .forceBridges => bridge_dialer
          | .forceDirect => direct_dialer
        .ok { pubkey := pubkey
              exit := exit
              dialer := final_dialer
              whitelisted := [exit.c2e_listen.ip]
              brokerCalled := true }

/-- route.rs `get_dialer`.  The Direct-constraint arm parses
`host:port/hexpk`, decodes and length-checks the key, resolves the
host, picks one address, whitelists it and returns a plain TCP dialer
without touching the broker.  Every other constraint accumulates the
selector constraints and goes to the broker path. -/
def get_dialer (constraint : ExitConstraint) (mode : BridgeMode) (env : DialEnv) :
    Except String DialOk :=
  match constraint with
  | .direct dir =>
    match splitOnce dir '/' with
    | none => .error "did not find / in a direct constraint"
    | some (host, pkHex) =>
      match hexDecode pkHex.data with
      | none => .error "cannot decode pubkey as hex"
      | some bytes =>
        if bytes.length = 32 then
          match env.resolve host with
          | .error e => .error e
          | .ok resolved =>
            match chooseRand resolved env.randIx with
            | none => .error "could not resolve destination for direct exit connection"
            | some dest_addr =>
              .ok { pubkey := bytes
                    exit := dummyExit
                    dialer := .tcp dest_addr
                    whitelisted := [dest_addr.ip]
                    brokerCalled := false }
        else .error "pubkey wrong length"
  | c => get_dialer_broker (constraintsOf c) mode env

/-! ### Exit-side handshake (listen.rs `handle_client`) -/

/-- 32-byte values (keys, points, secrets, MACs) and signatures,
modelled abstractly as naturals: no claim depends on their byte
structure. -/
abbrev Bytes32 : Type := Nat

/-- Modelled from the spec: `ClientCryptHello` lives in
`geph5_misc_rpc`, which is not among the sources; the spec gives its
two variants. -/
inductive ClientCryptHello where
  | sharedSecretChallenge (key : Bytes32)
  | x25519 (their_epk : Bytes32)
deriving DecidableEq, Repr

/-- Modelled from the spec: `ClientHello` lives in `geph5_misc_rpc`;
the spec shows a `crypt_hello` field plus further fields we keep
opaque in `rest`. -/
structure ClientHello where
  crypt_hello : ClientCryptHello
  rest : Nat
deriving DecidableEq, Repr

/-- Modelled from the spec: `ExitHelloInner` lives in
`geph5_misc_rpc`; the spec gives its two variants. -/
inductive ExitHelloInner where
  | sharedSecretResponse (mac : Bytes32)
  | x25519 (epk : Bytes32)
deriving DecidableEq, Repr

/-- Modelled from the spec: `ExitHello` lives in `geph5_misc_rpc`;
an inner value plus the exit's signature. -/
structure ExitHello where
  inner : ExitHelloInner
  signature : Bytes32
deriving DecidableEq, Repr

/-- The external cryptographic primitives handle_client calls
(blake3, x25519_dalek, ed25519_dalek, stdcode), taken as parameters:
`keyedHash` is `blake3::keyed_hash`, `derive_key` is
`blake3::derive_key`, `dh` is `EphemeralSecret::diffie_hellman`,
`basePoint` is `PublicKey::from(&esk)`, `sign` is
`SigningKey::sign` with the exit's `SIGNING_SECRET`, and
`encClientHello`/`encInner` are the stdcode encodings of the two hello
component types.  stdcode encodes a tuple by concatenating the
encodings of its fields, so `(a, b).stdcode()` is modelled as
`encClientHello a ++ encInner b`. -/
structure CryptoPrims where
  keyedHash : Bytes32 → Bytes32 → Bytes32
  derive_key : String → Bytes32 → Bytes32
  dh : Bytes32 → Bytes32 → Bytes32
  basePoint : Bytes32 → Bytes32
  sign : List Nat → Bytes32
  encClientHello : ClientHello → List Nat
  encInner : ExitHelloInner → List Nat

/-- The state of the client pipe after the handshake: wrapped in a
`ClientExitCryptPipe` with the given read and write keys
(`EitherPipe::Left`), or passed through unwrapped
(`EitherPipe::Right`). -/
inductive PipeWrap where
  | encrypted (read_key : Bytes32) (write_key : Bytes32)
  | plain
deriving DecidableEq, Repr

/-- What the handshake phase of handle_client produces: the `ExitHello`
written back, and how the pipe is wrapped afterwards. -/
structure HandshakeResult where
  exit_hello : ExitHello
  wrap : PipeWrap
deriving DecidableEq, Repr

/-- The `match client_hello.crypt_hello` of listen.rs lines 103–119:
produces the `ExitHelloInner` and the optional `(read_key, write_key)`
pair.  `sharedSecret` is `client.shared_secret()` (what the transport
exposes); `my_esk` stands for the freshly generated ephemeral secret
(`EphemeralSecret::random_from_rng`), made an input because randomness
is external. -/
def cryptPhase (P : CryptoPrims) (sharedSecret : Option Bytes32) (my_esk : Bytes32) :
    ClientCryptHello → Except String (ExitHelloInner × Option (Bytes32 × Bytes32))
  | .sharedSecretChallenge key =>
    match sharedSecret with
    | none => .error "no shared secret"
    | some real_ss => .ok (.sharedSecretResponse (P.keyedHash key real_ss), none)
  | .x25519 their_epk =>
    let my_epk := P.basePoint my_esk
    let shared_secret := P.dh my_esk their_epk
    let read_key := P.derive_key "c2e" shared_secret
    let write_key := P.derive_key "e2c" shared_secret
    .ok (.x25519 my_epk, some (read_key, write_key))

/-- listen.rs `handle_client`, up to installing the multiplexer: runs
the crypt phase, builds the signed `ExitHello`, and wraps the pipe when
session keys were derived. -/
def handle_client (P : CryptoPrims) (sharedSecret : Option Bytes32) (my_esk : Bytes32)
    (client_hello : ClientHello) : Except String HandshakeResult :=
  match cryptPhase P sharedSecret my_esk client_hello.crypt_hello with
  | .error e => .error e
  | .ok (exit_hello_inner, keys) =>
    let exit_hello : ExitHello :=
      { inner := exit_hello_inner
        signature := P.sign (P.encClientHello client_hello ++ P.encInner exit_hello_inner) }
    let wrap :=
      match keys with
      | some (read_key, write_key) => PipeWrap.encrypted read_key write_key
      | none => PipeWrap.plain
    .ok { exit_hello := exit_hello, wrap := wrap }

/-! ### Concrete fixtures used by witnesses and counterexamples -/

/-- A concrete address. -/
def addr0 : SockAddr := ⟨"9.9.9.9", 80⟩

/-- The empty failure cache. -/
def emptyCache : Cache := fun _ => none

/-- A cache holding strike count 3 for `addr0`. -/
def cache3 : Cache := fun x => if x = addr0 then some 3 else none

/-- A concrete exit in the US with load 0.5. -/
def exitUS : ExitDescriptor :=
  ⟨⟨"1.1.1.1", 1⟩, ⟨"2.2.2.2", 2⟩, "US", "nyc", mkRat 1 2, 100⟩

/-- A concrete exit in Germany with load 0.1. -/
def exitDE : ExitDescriptor :=
  ⟨⟨"3.3.3.3", 3⟩, ⟨"4.4.4.4", 4⟩, "DE", "ber", mkRat 1 10, 100⟩

/-- A concrete pubkey value. -/
def pkA : PubKey := [1]

/-- Another concrete pubkey value. -/
def pkB : PubKey := [2]

/-- Concrete (non-cryptographic) instantiation of the external
primitives, used only to instantiate witnesses. -/
def testPrims : CryptoPrims where
  keyedHash := fun k s => k * 1000003 + s
  derive_key := fun l s => l.length * 31 + s
  dh := fun a b => a * 131 + b
  basePoint := fun a => a + 7
  sign := fun m => m.foldl (fun acc b => acc * 257 + b) 1
  encClientHello := fun ch =>
    match ch.crypt_hello with
    | .sharedSecretChallenge k => [0, k, ch.rest]
    | .x25519 e => [1, e, ch.rest]
  encInner := fun i =>
    match i with
    | .sharedSecretResponse m => [0, m]
    | .x25519 e => [1, e]

/-- A concrete environment for witnesses on the broker path: two exits,
a trivial bridge route. -/
def envBroker : DialEnv where
  resolve := fun _ => .error "no dns"
  randIx := 0
  exitsFetch := .ok [(pkA, exitUS), (pkB, exitDE)]
  bridgeRoutes := .ok (.other "unknown")

/-- A concrete environment for witnesses on the direct path: one
resolved address. -/
def envDirect : DialEnv where
  resolve := fun h => if h = "1.2.3.4:1000" then .ok [⟨"1.2.3.4", 1000⟩] else .error "dns"
  randIx := 0
  exitsFetch := .error "broker untouched"
  bridgeRoutes := .error "broker untouched"

/-- 64 zero hex characters (a 32-byte key of zeros). -/
def hex64zeros : String :=
  String.mk (List.replicate 64 '0')

/-- A concrete Direct-constraint string: `1.2.3.4:1000/` then 64 zero
hex characters. -/
def directStr : String :=
  "1.2.3.4:1000/" ++ hex64zeros

/-- Selector constraints corresponding to `Country(JP)`. -/
def scJP : SelConstraints := ⟨some "JP", none, none⟩

/-- Selector constraints corresponding to `Auto` (no filter). -/
def scAuto : SelConstraints := ⟨none, none, none⟩

/-- A concrete two-exit directory. -/
def exitsList : List (PubKey × ExitDescriptor) :=
  [(pkA, exitUS), (pkB, exitDE)]

/-! ### Helper lemmas on `minByKey` (Rust `Iterator::min_by_key`) -/

/-- `min_by_key` yields `none` exactly on the empty iterator. -/
theorem minByKey_eq_none_iff {α : Type} (key : α → Nat) (l : List α) :
    minByKey key l = none ↔ l = [] := by
  cases l with
  | nil => simp [minByKey]
  | cons x xs =>
    simp only [minByKey]
    constructor
    · intro h
      cases h' : minByKey key xs with
      | none => rw [h'] at h; exact absurd h (by simp)
      | some y =>
        rw [h'] at h
        by_cases hk : key x ≤ key y <;> simp [hk] at h
    · intro h
      exact absurd h (by simp)

/-- `min_by_key` returns an element of the list. -/
theorem minByKey_mem {α : Type} (key : α → Nat) :
    ∀ {l : List α} {x : α}, minByKey key l = some x → x ∈ l := by
  intro l
  induction l with
  | nil => intro x h; simp [minByKey] at h
  | cons a as ih =>
    intro x h
    simp only [minByKey] at h
    cases h' : minByKey key as with
    | none =>
      rw [h'] at h
      injection h with h
      subst h
      exact List.mem_cons_self a as
    | some y =>
      rw [h'] at h
      by_cases hk : key a ≤ key y
      · simp only [hk, if_true] at h
        injection h with h
        subst h
        exact List.mem_cons_self a as
      · simp only [hk, if_false] at h
        injection h with h
        subst h
        exact List.mem_cons_of_mem a (ih h')

/-- `min_by_key` returns an element whose key is minimal. -/
theorem minByKey_min {α : Type} (key : α → Nat) :
    ∀ {l : List α} {x : α}, minByKey key l = some x → ∀ y ∈ l, key x ≤ key y := by
  intro l
  induction l with
  | nil => intro x h; simp [minByKey] at h
  | cons a as ih =>
    intro x h y hy
    simp only [minByKey] at h
    cases h' : minByKey key as with
    | none =>
      rw [h'] at h
      injection h with h
      subst h
      rcases List.mem_cons.mp hy with rfl | hy'
      · exact Nat.le_refl _
      · exact absurd h' (by simp [minByKey_eq_none_iff, List.ne_nil_of_mem hy'])
    | some m =>
      rw [h'] at h
      by_cases hk : key a ≤ key m
      · simp only [hk, if_true] at h
        injection h with h
        subst h
        rcases List.mem_cons.mp hy with rfl | hy'
        · exact Nat.le_refl _
        · exact Nat.le_trans hk (ih h' y hy')
      · simp only [hk, if_false] at h
        injection h with h
        subst h
        rcases List.mem_cons.mp hy with rfl | hy'
        · exact Nat.le_of_lt (Nat.lt_of_not_le hk)
        · exact ih h' y hy'

/-- Evaluation helper: the US fixture's load key is 500. -/
theorem loadKey_exitUS : loadKey exitUS.load = 500 := by
  have h : exitUS.load = (1 : ℚ) / 2 := by
    simp [exitUS, Rat.mkRat_eq_div]
  rw [h]
  unfold loadKey f64AsU64
  rw [show ((1 : ℚ) / 2) * 1000 = 500 by norm_num]
  rw [show Rat.floor (500 : ℚ) = ⌊(500 : ℚ)⌋ from rfl]
  norm_num
  rfl

/-- Evaluation helper: the DE fixture's load key is 100. -/
theorem loadKey_exitDE : loadKey exitDE.load = 100 := by
  have h : exitDE.load = (1 : ℚ) / 10 := by
    simp [exitDE, Rat.mkRat_eq_div]
  rw [h]
  unfold loadKey f64AsU64
  rw [show ((1 : ℚ) / 10) * 1000 = 100 by norm_num]
  rw [show Rat.floor (100 : ℚ) = ⌊(100 : ℚ)⌋ from rfl]
  norm_num
  rfl

/-- Evaluation helper: with no constraints, the selector picks the DE
exit (smaller load key) from the fixture directory. -/
theorem selectExit_auto_eval : selectExit scAuto exitsList = some (pkB, exitDE) := by
  simp [selectExit, exitsList, scAuto, exitMatches, minByKey, loadKey_exitUS, loadKey_exitDE]

/-! ### Claim theorems -/

/-- C1 counterexample: on the empty failure cache, one
`deprioritize_route` call leaves strike count 2, not 1 as claimed
(`get_with(addr, || 1)` already inserts 1, and the outer `insert` then
stores that value plus one). -/
theorem C1_counterexample :
    penalty (deprioritize_route emptyCache addr0) addr0 = 2 ∧
    ¬ penalty (deprioritize_route emptyCache addr0) addr0 = 1 := by
  constructor <;> decide

/-- C1 (amended): bumping an absent address sets its strike count to 2;
bumping an address with count n sets it to n + 1; `penalty` reads the
current strike count and returns 0 for an absent address. -/
theorem C1_bump_and_penalty (c : Cache) (a : SockAddr) :
    (c a = none → penalty (deprioritize_route c a) a = 2) ∧
    (∀ n : Nat, c a = some n → penalty (deprioritize_route c a) a = n + 1) ∧
    (penalty c a = (c a).getD 0) ∧
    (c a = none → penalty c a = 0) := by
  refine ⟨?_, ?_, rfl, ?_⟩
  · intro h
    simp [deprioritize_route, cacheGetWith, h, penalty, cacheInsert]
  · intro n h
    simp [deprioritize_route, cacheGetWith, h, penalty, cacheInsert]
  · intro h
    simp [penalty, h]

/-- C1 witness: the amended statement evaluated on concrete caches. -/
theorem C1_witness :
    penalty (deprioritize_route emptyCache addr0) addr0 = 2 ∧
    penalty (deprioritize_route cache3 addr0) addr0 = 4 ∧
    penalty emptyCache addr0 = 0 :=
  ⟨(C1_bump_and_penalty emptyCache addr0).1 rfl,
   (C1_bump_and_penalty cache3 addr0).2.1 3 (by decide),
   (C1_bump_and_penalty emptyCache addr0).2.2.2 rfl⟩

/-- C2: on the broker path the selector returns `none` (the "no exits"
error) exactly when the unfiltered list is empty; on a non-empty list
it chooses some exit; the chosen exit is of minimum load key among the
filtered exits when the filter is non-empty (and then satisfies the
constraint), else of minimum load key among all exits.  ("Minimum
load" is the spec's own load comparison: load·1000 cast to an
integer.) -/
theorem C2_selectExit (sc : SelConstraints) (exits : List (PubKey × ExitDescriptor)) :
    (selectExit sc exits = none ↔ exits = []) ∧
    (∀ pk ex, selectExit sc exits = some (pk, ex) →
      ((pk, ex) ∈ exits.filter (fun e => exitMatches sc e.2) ∧
        exitMatches sc ex = true ∧
        ∀ e ∈ exits.filter (fun e => exitMatches sc e.2),
          loadKey ex.load ≤ loadKey e.2.load) ∨
      (exits.filter (fun e => exitMatches sc e.2) = [] ∧
        (pk, ex) ∈ exits ∧
        ∀ e ∈ exits, loadKey ex.load ≤ loadKey e.2.load)) ∧
    (exits ≠ [] → ∃ pk ex, selectExit sc exits = some (pk, ex)) := by
  have hnone : selectExit sc exits = none ↔ exits = [] := by
    simp only [selectExit]
    cases hf : minByKey (fun e => loadKey e.2.load)
        (exits.filter (fun e => exitMatches sc e.2)) with
    | none => simp [minByKey_eq_none_iff]
    | some m =>
      simp only []
      constructor
      · intro h; exact absurd h (by simp)
      · intro h
        subst h
        simp [minByKey] at hf
  refine ⟨hnone, ?_, ?_⟩
  · intro pk ex hsel
    simp only [selectExit] at hsel
    cases hf : minByKey (fun e => loadKey e.2.load)
        (exits.filter (fun e => exitMatches sc e.2)) with
    | some m =>
      rw [hf] at hsel
      injection hsel with hsel
      subst hsel
      left
      have hmem := minByKey_mem _ hf
      refine ⟨hmem, ?_, minByKey_min _ hf⟩
      exact (List.mem_filter.mp hmem).2
    | none =>
      rw [hf] at hsel
      right
      exact ⟨(minByKey_eq_none_iff _ _).mp hf, minByKey_mem _ hsel, minByKey_min _ hsel⟩
  · intro hne
    cases hsel : selectExit sc exits with
    | none => exact absurd (hnone.mp hsel) hne
    | some m =>
      obtain ⟨pk, ex⟩ := m
      exact ⟨pk, ex, rfl⟩

/-- C2 witness: `Country(JP)` over a US and a DE exit — the filter is
empty and the minimum-load exit overall is chosen. -/
theorem C2_witness :
    ∃ pk ex, selectExit scJP exitsList = some (pk, ex) :=
  (C2_selectExit scJP exitsList).2.2 (by decide)

/-- C3: the selector's load comparison between two exits is `Ord` on
the integer keys `(load * 1000) as u64` (truncating cast), hence
total: exactly one of lt/eq/gt holds; on equal keys `min_by_key`
deterministically keeps the earlier exit. -/
theorem C3_load_comparison (e1 e2 : ExitDescriptor)
    (h1 : 0 ≤ e1.load) (h2 : 0 ≤ e2.load) :
    (loadCmp e1 e2 = .lt ↔ loadKey e1.load < loadKey e2.load) ∧
    (loadCmp e1 e2 = .eq ↔ loadKey e1.load = loadKey e2.load) ∧
    (loadCmp e1 e2 = .gt ↔ loadKey e2.load < loadKey e1.load) ∧
    ((loadCmp e1 e2 = .lt ∧ loadCmp e1 e2 ≠ .eq ∧ loadCmp e1 e2 ≠ .gt) ∨
     (loadCmp e1 e2 ≠ .lt ∧ loadCmp e1 e2 = .eq ∧ loadCmp e1 e2 ≠ .gt) ∨
     (loadCmp e1 e2 ≠ .lt ∧ loadCmp e1 e2 ≠ .eq ∧ loadCmp e1 e2 = .gt)) ∧
    (loadKey e1.load = loadKey e2.load →
      minByKey (fun e => loadKey e.load) [e1, e2] = some e1) := by
  have hlt : loadCmp e1 e2 = .lt ↔ loadKey e1.load < loadKey e2.load := by
    simp [loadCmp, compare_lt_iff_lt]
  have heq : loadCmp e1 e2 = .eq ↔ loadKey e1.load = loadKey e2.load := by
    simp [loadCmp, compare_eq_iff_eq]
  have hgt : loadCmp e1 e2 = .gt ↔ loadKey e2.load < loadKey e1.load := by
    simp [loadCmp, compare_gt_iff_gt]
  refine ⟨hlt, heq, hgt, ?_, ?_⟩
  · rcases Nat.lt_trichotomy (loadKey e1.load) (loadKey e2.load) with h | h | h
    · exact Or.inl ⟨hlt.mpr h, fun hc => absurd (heq.mp hc) (Nat.ne_of_lt h),
        fun hc => absurd (hgt.mp hc) (Nat.lt_asymm h)⟩
    · refine Or.inr (Or.inl ⟨fun hc => absurd (hlt.mp hc) (by omega), heq.mpr h,
        fun hc => absurd (hgt.mp hc) (by omega)⟩)
    · exact Or.inr (Or.inr ⟨fun hc => absurd (hlt.mp hc) (Nat.lt_asymm h),
        fun hc => absurd (heq.mp hc) (Nat.ne_of_gt h), hgt.mpr h⟩)
  · intro h
    simp [minByKey, h]

/-- C3 witness: the comparison evaluated on the concrete US and DE
exits (keys 500 and 100). -/
theorem C3_witness : loadCmp exitUS exitDE = Ordering.gt :=
  ((C3_load_comparison exitUS exitDE (by decide) (by decide)).2.2.1).mpr
    (by rw [loadKey_exitUS, loadKey_exitDE]; norm_num)

/-- C4: for an `X25519(their_epk)` hello the exit replies with its
ephemeral public key, derives `c2e`/`e2c` from the Diffie–Hellman
shared secret, and wraps the pipe with read key `c2e` and write key
`e2c`; for a `SharedSecretChallenge(key)` hello it fails when the
transport has no shared secret, and otherwise replies
`SharedSecretResponse(keyed_hash(key, shared_secret))` and leaves the
pipe unwrapped. -/
theorem C4_handle_client_crypt (P : CryptoPrims) (ss : Option Bytes32)
    (my_esk : Bytes32) (rest : Nat) :
    (∀ epk : Bytes32, ∃ r : HandshakeResult,
      handle_client P ss my_esk ⟨.x25519 epk, rest⟩ = .ok r ∧
      r.exit_hello.inner = .x25519 (P.basePoint my_esk) ∧
      r.wrap = .encrypted (P.derive_key "c2e" (P.dh my_esk epk))
                          (P.derive_key "e2c" (P.dh my_esk epk))) ∧
    (∀ key : Bytes32, ss = none →
      handle_client P ss my_esk ⟨.sharedSecretChallenge key, rest⟩ =
        .error "no shared secret") ∧
    (∀ key real_ss : Bytes32, ss = some real_ss → ∃ r : HandshakeResult,
      handle_client P ss my_esk ⟨.sharedSecretChallenge key, rest⟩ = .ok r ∧
      r.exit_hello.inner = .sharedSecretResponse (P.keyedHash key real_ss) ∧
      r.wrap = .plain) := by
  refine ⟨?_, ?_, ?_⟩
  · intro epk
    exact ⟨_, rfl, rfl, rfl⟩
  · intro key h
    subst h
    rfl
  · intro key real_ss h
    subst h
    exact ⟨_, rfl, rfl, rfl⟩

/-- C4 witness: both branches evaluated at concrete primitives. -/
theorem C4_witness :
    handle_client testPrims none 7 ⟨.sharedSecretChallenge 3, 0⟩ =
      .error "no shared secret" ∧
    (∃ r : HandshakeResult,
      handle_client testPrims (some 5) 7 ⟨.sharedSecretChallenge 3, 0⟩ = .ok r ∧
      r.exit_hello.inner = .sharedSecretResponse (testPrims.keyedHash 3 5) ∧
      r.wrap = .plain) ∧
    (∃ r : HandshakeResult,
      handle_client testPrims (some 5) 7 ⟨.x25519 9, 0⟩ = .ok r ∧
      r.exit_hello.inner = .x25519 (testPrims.basePoint 7) ∧
      r.wrap = .encrypted (testPrims.derive_key "c2e" (testPrims.dh 7 9))
                          (testPrims.derive_key "e2c" (testPrims.dh 7 9))) :=
  ⟨(C4_handle_client_crypt testPrims none 7 0).2.1 3 rfl,
   (C4_handle_client_crypt testPrims (some 5) 7 0).2.2 3 5 rfl,
   (C4_handle_client_crypt testPrims (some 5) 7 0).1 9⟩

/-- C5: whenever handle_client succeeds, the signature of the
`ExitHello` it writes back is the exit's signature over the
concatenated stdcode encodings of the received `ClientHello` and the
produced inner. -/
theorem C5_signature_binds (P : CryptoPrims) (ss : Option Bytes32)
    (my_esk : Bytes32) (ch : ClientHello) (r : HandshakeResult)
    (h : handle_client P ss my_esk ch = .ok r) :
    r.exit_hello.signature =
      P.sign (P.encClientHello ch ++ P.encInner r.exit_hello.inner) := by
  obtain ⟨crypt, rest⟩ := ch
  cases crypt with
  | sharedSecretChallenge key =>
    cases ss with
    | none => simp [handle_client, cryptPhase] at h
    | some real_ss =>
      simp only [handle_client, cryptPhase] at h
      injection h with h
      subst h
      rfl
  | x25519 epk =>
    simp only [handle_client, cryptPhase] at h
    injection h with h
    subst h
    rfl

/-- C5 witness: the signature law evaluated at concrete primitives. -/
theorem C5_witness :
    ({ exit_hello :=
        { inner := .x25519 (testPrims.basePoint 7)
          signature := testPrims.sign
            (testPrims.encClientHello ⟨.x25519 9, 0⟩ ++
              testPrims.encInner (.x25519 (testPrims.basePoint 7))) }
       wrap := .encrypted (testPrims.derive_key "c2e" (testPrims.dh 7 9))
                          (testPrims.derive_key "e2c" (testPrims.dh 7 9)) } :
        HandshakeResult).exit_hello.signature =
      testPrims.sign
        (testPrims.encClientHello ⟨.x25519 9, 0⟩ ++
          testPrims.encInner (ExitHelloInner.x25519 (testPrims.basePoint 7))) :=
  C5_signature_binds testPrims (some 5) 7 ⟨.x25519 9, 0⟩ _ rfl

/-- C6: `Race` and `Fallback` over empty child lists and `Other(_)`
all compile to the failing dialer, whose dial never yields a stream in
any network. -/
theorem C6_degenerate_routes :
    route_to_dialer (.race []) = .failing ∧
    route_to_dialer (.fallback []) = .failing ∧
    (∀ s : String, route_to_dialer (.other s) = .failing) ∧
    (∀ net : SockAddr → Bool, dialSucceeds net .failing = false) := by
  refine ⟨?_, ?_, fun s => ?_, fun net => rfl⟩ <;>
    simp [route_to_dialer, reduceDialers]

/-- C7: the dialer compiled from `Tcp(addr)` (and the direct dialer
built in get_dialer) computes its pre-dial delay at dial time: against
any cache state, the delay equals the current `penalty` of `addr`, so
a bump performed after compilation raises the delay of a later dial of
the very same dialer (here from 0 to 2 seconds on a fresh address). -/
theorem C7_late_bound_delay (addr : SockAddr) (c : Cache) :
    preDialDelaySecs (route_to_dialer (.tcp addr)) c = penalty c addr ∧
    preDialDelaySecs (directDialerFor addr) c = penalty c addr ∧
    (c addr = none →
      preDialDelaySecs (route_to_dialer (.tcp addr)) c = 0 ∧
      preDialDelaySecs (route_to_dialer (.tcp addr)) (deprioritize_route c addr) = 2) := by
  refine ⟨?_, rfl, ?_⟩
  · simp [route_to_dialer, preDialDelaySecs]
  · intro h
    constructor
    · simp [route_to_dialer, preDialDelaySecs, penalty, h]
    · simp [route_to_dialer, preDialDelaySecs, penalty,
        deprioritize_route, cacheGetWith, h, cacheInsert]

/-- C7 witness: dial-time delay on the empty cache and after one bump. -/
theorem C7_witness :
    preDialDelaySecs (route_to_dialer (.tcp addr0)) emptyCache = 0 ∧
    preDialDelaySecs (route_to_dialer (.tcp addr0)) (deprioritize_route emptyCache addr0) = 2 :=
  (C7_late_bound_delay addr0 emptyCache).2.2 rfl

/-- C8: every non-Direct constraint routes get_dialer through the
broker path, and there the final dialer is composed by `bridge_mode`:
`Auto` races the direct dialer against the bridge dialer delayed by
1000 ms, `ForceBridges` is the bridge dialer alone, `ForceDirect` the
direct dialer alone. -/
theorem C8_bridge_mode (sc : SelConstraints) (mode : BridgeMode) (env : DialEnv)
    (exits : List (PubKey × ExitDescriptor)) (pk : PubKey) (ex : ExitDescriptor)
    (routes : RouteDescriptor)
    (hfetch : env.exitsFetch = .ok exits)
    (hsel : selectExit sc exits = some (pk, ex))
    (hroutes : env.bridgeRoutes = .ok routes) :
    get_dialer_broker sc mode env =
      .ok { pubkey := pk
            exit := ex
            dialer :=
              match mode with
              | .auto => Dialer.race (directDialerFor ex.c2e_listen)
                  (.delay 1000 (route_to_dialer routes))
              | .forceBridges => route_to_dialer routes
              | .forceDirect => directDialerFor ex.c2e_listen
            whitelisted := [ex.c2e_listen.ip]
            brokerCalled := true } ∧
    (∀ con : ExitConstraint, (∀ dir, con ≠ .direct dir) →
      get_dialer con mode env = get_dialer_broker (constraintsOf con) mode env) := by
  constructor
  · cases mode <;> simp [get_dialer_broker, hfetch, hsel, hroutes]
  · intro con hcon
    cases con with
    | direct dir => exact absurd rfl (hcon dir)
    | auto => rfl
    | hostname h => rfl
    | country c => rfl
    | countryCity c city => rfl

/-- C8 witness: the composition evaluated in `Auto` mode on the
fixture directory. -/
theorem C8_witness :
    get_dialer_broker scAuto .auto envBroker =
      .ok { pubkey := pkB
            exit := exitDE
            dialer := Dialer.race (directDialerFor exitDE.c2e_listen)
              (.delay 1000 (route_to_dialer (.other "unknown")))
            whitelisted := [exitDE.c2e_listen.ip]
            brokerCalled := true } :=
  (C8_bridge_mode scAuto .auto envBroker exitsList pkB exitDE (.other "unknown")
    rfl selectExit_auto_eval rfl).1

/-- C9: on a `Direct` constraint, get_dialer fails when the string has
no `/`, when the key part is not valid hex, or when the decoded key is
not exactly 32 bytes; otherwise it resolves the host, picks the
address selected by the random draw, whitelists exactly that address's
IP, and returns the decoded key with a plain TCP dialer to that
address and no broker contact. -/
theorem C9_direct_path (dir : String) (mode : BridgeMode) (env : DialEnv) :
    (splitOnce dir '/' = none →
      get_dialer (.direct dir) mode env =
        .error "did not find / in a direct constraint") ∧
    (∀ host pkHex, splitOnce dir '/' = some (host, pkHex) →
      (hexDecode pkHex.data = none →
        get_dialer (.direct dir) mode env = .error "cannot decode pubkey as hex") ∧
      (∀ bytes, hexDecode pkHex.data = some bytes →
        (bytes.length ≠ 32 →
          get_dialer (.direct dir) mode env = .error "pubkey wrong length") ∧
        (bytes.length = 32 →
          (∀ e, env.resolve host = .error e →
            get_dialer (.direct dir) mode env = .error e) ∧
          (∀ resolved, env.resolve host = .ok resolved →
            (chooseRand resolved env.randIx = none →
              get_dialer (.direct dir) mode env =
                .error "could not resolve destination for direct exit connection") ∧
            (∀ dest, chooseRand resolved env.randIx = some dest →
              get_dialer (.direct dir) mode env =
                .ok { pubkey := bytes
                      exit := dummyExit
                      dialer := .tcp dest
                      whitelisted := [dest.ip]
                      brokerCalled := false }))))) := by
  constructor
  · intro h
    simp [get_dialer, h]
  · intro host pkHex hsplit
    constructor
    · intro h
      simp [get_dialer, hsplit, h]
    · intro bytes hbytes
      constructor
      · intro hlen
        simp [get_dialer, hsplit, hbytes, hlen]
      · intro hlen
        constructor
        · intro e hres
          simp [get_dialer, hsplit, hbytes, hlen, hres]
        · intro resolved hres
          constructor
          · intro hchoose
            simp [get_dialer, hsplit, hbytes, hlen, hres, hchoose]
          · intro dest hchoose
            simp [get_dialer, hsplit, hbytes, hlen, hres, hchoose]

/-- C9 witness: the happy path on a concrete direct constraint with a
32-byte zero key. -/
theorem C9_witness :
    get_dialer (.direct directStr) .auto envDirect =
      .ok { pubkey := List.replicate 32 0
            exit := dummyExit
            dialer := .tcp ⟨"1.2.3.4", 1000⟩
            whitelisted := ["1.2.3.4"]
            brokerCalled := false } := by
  have h := (C9_direct_path directStr .auto envDirect).2 "1.2.3.4:1000" hex64zeros
    (by decide)
  have h2 := (h.2 (List.replicate 32 0) (by decide)).2 (by decide)
  exact (h2.2 [⟨"1.2.3.4", 1000⟩] rfl).2 ⟨"1.2.3.4", 1000⟩ (by decide)

/-- C10: whenever the Direct-constraint path of get_dialer succeeds,
the returned descriptor is the fixed placeholder: both listen
endpoints 0.0.0.0:0, country ABW, empty city, load 0, expiry 0. -/
theorem C10_dummy_descriptor (dir : String) (mode : BridgeMode) (env : DialEnv)
    (r : DialOk) (h : get_dialer (.direct dir) mode env = .ok r) :
    r.exit = dummyExit ∧
    r.exit.c2e_listen = ⟨"0.0.0.0", 0⟩ ∧
    r.exit.b2e_listen = ⟨"0.0.0.0", 0⟩ ∧
    r.exit.country = "ABW" ∧
    r.exit.city = "" ∧
    r.exit.load = 0 ∧
    r.exit.expiry = 0 := by
  simp only [get_dialer] at h
  repeat' split at h
  all_goals simp_all
  all_goals subst h
  all_goals simp [dummyExit]

/-- C10 witness: the placeholder descriptor observed on the concrete
happy path. -/
theorem C10_witness :
    ({ pubkey := List.replicate 32 0
       exit := dummyExit
       dialer := .tcp ⟨"1.2.3.4", 1000⟩
       whitelisted := ["1.2.3.4"]
       brokerCalled := false } : DialOk).exit = dummyExit ∧
    dummyExit.c2e_listen = ⟨"0.0.0.0", 0⟩ ∧
    dummyExit.b2e_listen = ⟨"0.0.0.0", 0⟩ ∧
    dummyExit.country = "ABW" ∧
    dummyExit.city = "" ∧
    dummyExit.load = 0 ∧
    dummyExit.expiry = 0 :=
  C10_dummy_descriptor directStr .auto envDirect _ rfl

end Geph5
